import Mathlib

/-!
Verification of the entity/collision/spawn core of the turtle-adventure game
(`turtle_adventure.py`), as a shallow embedding in Lean 4.

Coordinates are embedded as exact rationals (for the purely arithmetic parts:
collision tests, fencing patrol, placement rules, teleport cooldown) or as real
numbers (for the parts that use Euclidean distance and unit-vector
normalisation: the player's waypoint steering and the chasing enemy).
Python's `random.randint(a, b)` is modelled by an explicit oracle that is
assumed to return a value in the closed interval `[a, b]`; Tk's `after`
timers are modelled by an explicit pending-event queue processed in
time order, FIFO among equal deadlines (registration order).
-/

namespace TurtleAdventure

/-- Home data from `Home.__init__`: a fixed position and a square side length. -/
structure Home where
  x : ℤ
  y : ℤ
  size : ℤ
deriving DecidableEq

/-- Containment test from `Home.contains`: the point must lie in the closed
square of side `size` centered at `(x, y)`.  Python's `size/2` is true
division, embedded as exact division in ℚ. -/
def homeContains (h : Home) (px py : ℚ) : Prop :=
  ((h.x : ℚ) - (h.size : ℚ) / 2 ≤ px ∧ px ≤ (h.x : ℚ) + (h.size : ℚ) / 2) ∧
  ((h.y : ℚ) - (h.size : ℚ) / 2 ≤ py ∧ py ≤ (h.y : ℚ) + (h.size : ℚ) / 2)

instance (h : Home) (px py : ℚ) : Decidable (homeContains h px py) :=
  inferInstanceAs (Decidable (_ ∧ _))

/-- Collision test from `Enemy.hits_player`: the player's point must lie
strictly inside the axis-aligned square of side `size` centered at the
enemy's position `(ex, ey)`.  Python's chained comparison `a < b < c`
means `(a < b) and (b < c)`. -/
def hitsPlayer (ex ey size px py : ℚ) : Bool :=
  (decide (ex - size / 2 < px) && decide (px < ex + size / 2)) &&
  (decide (ey - size / 2 < py) && decide (py < ey + size / 2))

/-- C3: `hits_player` returns true iff the player's position lies strictly
inside the enemy's bounding square on both axes; a player exactly on the
boundary, e.g. at `(ex + size/2, ey)`, is not a hit, while
`(ex + size/2 - eps, ey)` is a hit for every `0 < eps < size`. -/
theorem hits_player_strict_interior (ex ey size px py eps : ℚ) :
    (hitsPlayer ex ey size px py = true ↔
      ((ex - size / 2 < px ∧ px < ex + size / 2) ∧
       (ey - size / 2 < py ∧ py < ey + size / 2))) ∧
    hitsPlayer ex ey size (ex + size / 2) ey = false ∧
    (0 < eps → eps < size →
      hitsPlayer ex ey size (ex + size / 2 - eps) ey = true) := by
  refine ⟨?_, ?_, ?_⟩
  · simp [hitsPlayer]
  · simp [hitsPlayer]
  · intro h1 h2
    simp only [hitsPlayer, Bool.and_eq_true, decide_eq_true_eq]
    refine ⟨⟨by linarith, by linarith⟩, by linarith, by linarith⟩

/-- Witness for C3 at a concrete input: enemy at the origin with size 20,
`eps = 1`. -/
theorem hits_player_strict_interior_witness :
    (0 : ℚ) < 1 ∧ (1 : ℚ) < 20 ∧
    hitsPlayer 0 0 20 (0 + 20 / 2 - 1) 0 = true :=
  ⟨by norm_num, by norm_num,
    (hits_player_strict_interior 0 0 20 5 5 1).2.2 (by norm_num) (by norm_num)⟩

/-- Kinds of enemies the generator spawns. -/
inductive EKind
  | randomWalk
  | chasing
  | fencing
  | teleporting
deriving DecidableEq

/-- Enemy base data as stored by `Enemy.__init__`, which assigns the given
`size` and `color` to fields without any validation, plus the concrete
subclass tag. -/
structure EnemyRec where
  kind : EKind
  size : ℤ
  color : String
deriving DecidableEq

/-- Construction from `Enemy.__init__` (invoked by every subclass's
`super().__init__(game, size, color)`): the arguments are stored unchanged. -/
def enemyInit (k : EKind) (size : ℤ) (color : String) : EnemyRec :=
  ⟨k, size, color⟩

/-- Timer callbacks registered by `EnemyGenerator`. -/
inductive Task
  | randomT
  | chasingT
  | fencingT
  | teleportingT
deriving DecidableEq

/-- Session state relevant to spawning: the pending `after` timers
(absolute fire time in ms, callback), the session's `enemies` list, and the
game's full element list (`add_element` reaches it directly; `add_enemy`
appends to `enemies` and then calls `add_element`). -/
structure GState where
  pending : List (ℕ × Task)
  enemies : List EnemyRec
  elements : List EnemyRec
deriving DecidableEq

/-- From `TurtleAdventureGame.add_enemy`: append to `enemies`, then
`add_element`. -/
def addEnemy (s : GState) (e : EnemyRec) : GState :=
  { s with enemies := s.enemies ++ [e], elements := s.elements ++ [e] }

/-- From `Game.add_element`: register the element for the update/render
cycle only; the `enemies` list is untouched. -/
def addElement (s : GState) (e : EnemyRec) : GState :=
  { s with elements := s.elements ++ [e] }

/-- From `after(delay, cb)`: register a timer at an absolute fire time. -/
def schedule (s : GState) (t : ℕ) (tk : Task) : GState :=
  { s with pending := s.pending ++ [(t, tk)] }

/-- One timer callback firing at time `t` (the event itself already removed
from `pending`).  `create_random_enemy` registers the new enemy with
`add_element` only; the other three callbacks use `add_enemy`.
`create_fencing_enemy` spawns 15 and does not reschedule;
`create_teleporting_enemy` spawns 5 and reschedules at +500ms. -/
def runTask (s : GState) (t : ℕ) : Task → GState
  | Task.randomT =>
      schedule (addElement s (enemyInit EKind.randomWalk 20 "red"))
        (t + 1000) Task.randomT
  | Task.chasingT =>
      schedule (addEnemy s (enemyInit EKind.chasing 20 "purple"))
        (t + 1000) Task.chasingT
  | Task.fencingT =>
      (List.range 15).foldl
        (fun acc _ => addEnemy acc (enemyInit EKind.fencing 20 "blue")) s
  | Task.teleportingT =>
      schedule
        ((List.range 5).foldl
          (fun acc _ => addEnemy acc (enemyInit EKind.teleporting 20 "black")) s)
        (t + 500) Task.teleportingT

/-- Earliest pending event; FIFO among equal deadlines (Tk fires timers of
the same deadline in registration order, and `schedule` appends). -/
def nextEvent : List (ℕ × Task) → Option (ℕ × Task)
  | [] => none
  | e :: rest =>
      match nextEvent rest with
      | none => some e
      | some e2 => if e.1 ≤ e2.1 then some e else some e2

/-- Discrete-event run of the timer queue up to a time horizon (fuel bounds
the number of processed events). -/
def runSched (horizon : ℕ) : ℕ → GState → GState
  | 0, s => s
  | Nat.succ fuel, s =>
      match nextEvent s.pending with
      | none => s
      | some e =>
          if e.1 ≤ horizon then
            runSched horizon fuel
              (runTask { s with pending := s.pending.erase e } e.1 e.2)
          else s

/-- Timers registered by `EnemyGenerator.__init__`: random at +1000ms,
chasing at +2000ms, fencing at +3000ms, teleporting at +4000ms. -/
def initState : GState :=
  ⟨[(1000, Task.randomT), (2000, Task.chasingT),
    (3000, Task.fencingT), (4000, Task.teleportingT)], [], []⟩

/-- Run the generator's timers from game start up to `horizon` ms. -/
def runTo (horizon fuel : ℕ) : GState :=
  runSched horizon fuel initState

/-- Number of enemies of a given kind in a list. -/
def countKind (l : List EnemyRec) (k : EKind) : ℕ :=
  l.countP (fun e => e.kind == k)

/-- C1: evaluating the scheduler through 4000 ms (each of the four initial
timers has fired at least once).  The session's `enemies` list contains NO
RandomWalkEnemy — `create_random_enemy` registers its enemy with
`add_element` instead of `add_enemy`, unlike the other three callbacks —
although 4 RandomWalkEnemy instances entered the game's element list; the
list does contain 3 ChasingEnemy, 15 FencingEnemy and 5 TeleportingEnemy. -/
theorem scheduler_first_four_firings :
    countKind (runTo 4000 20).enemies EKind.randomWalk = 0 ∧
    countKind (runTo 4000 20).elements EKind.randomWalk = 4 ∧
    countKind (runTo 4000 20).enemies EKind.chasing = 3 ∧
    countKind (runTo 4000 20).enemies EKind.fencing = 15 ∧
    countKind (runTo 4000 20).enemies EKind.teleporting = 5 := by
  decide

/-- C9 counterexample: `Enemy.__init__` performs no validation, so an enemy
constructed with size -5 exists and violates `size > 0`. -/
theorem enemy_size_not_validated :
    (enemyInit EKind.randomWalk (-5) "red").size = -5 ∧
    ¬ (0 < (enemyInit EKind.randomWalk (-5) "red").size) := by
  decide

/-- C9 amended: construction stores the given size unchanged (no rejection
or clamping), so `size > 0` is not enforced at construction; every enemy the
generator actually spawns is constructed with size 20, which is positive. -/
theorem enemy_init_stores_size (k : EKind) (size : ℤ) (color : String) :
    (enemyInit k size color).size = size ∧
    (∀ e ∈ (runTo 4000 20).enemies, e.size = 20 ∧ 0 < e.size) :=
  ⟨rfl, by decide⟩

/-- Witness for C9 amended: a concrete spawned chasing enemy is in the
enemies list of the 4000 ms run and has size 20 > 0. -/
theorem enemy_init_stores_size_witness :
    (enemyInit EKind.chasing 20 "purple").size = 20 ∧
    enemyInit EKind.chasing 20 "purple" ∈ (runTo 4000 20).enemies ∧
    0 < (enemyInit EKind.chasing 20 "purple").size :=
  ⟨(enemy_init_stores_size EKind.chasing 20 "purple").1, by decide,
    ((enemy_init_stores_size EKind.chasing 20 "purple").2
      (enemyInit EKind.chasing 20 "purple") (by decide)).2⟩

/-- Movement directions of `FencingEnemy` (the Python code stores them as
strings "right", "down", "left", "up"). -/
inductive FDir
  | rightD
  | downD
  | leftD
  | upD
deriving DecidableEq

/-- Mutable state of a `FencingEnemy`: position and current direction. -/
structure FState where
  x : ℚ
  y : ℚ
  dir : FDir
deriving DecidableEq

/-- Fixed patrol cycle right→down→left→up→right. -/
def fencingNext : FDir → FDir
  | FDir.rightD => FDir.downD
  | FDir.downD => FDir.leftD
  | FDir.leftD => FDir.upD
  | FDir.upD => FDir.rightD

/-- From `FencingEnemy.update`: move by speed 4 in the current direction;
on reaching the boundary of the square of side 80 centered on home
`(hx, hy)`, clamp to the boundary and switch to the next direction.
`square_top` is `home_y - 80/2` (the y axis points down). -/
def fencingUpdate (hx hy : ℚ) (s : FState) : FState :=
  let squareLeft := hx - 80 / 2
  let squareRight := hx + 80 / 2
  let squareTop := hy - 80 / 2
  let squareBottom := hy + 80 / 2
  match s.dir with
  | FDir.rightD =>
      let x := s.x + 4
      if squareRight ≤ x then ⟨squareRight, s.y, FDir.downD⟩
      else ⟨x, s.y, FDir.rightD⟩
  | FDir.downD =>
      let y := s.y + 4
      if squareBottom ≤ y then ⟨s.x, squareBottom, FDir.leftD⟩
      else ⟨s.x, y, FDir.downD⟩
  | FDir.leftD =>
      let x := s.x - 4
      if x ≤ squareLeft then ⟨squareLeft, s.y, FDir.upD⟩
      else ⟨x, s.y, FDir.leftD⟩
  | FDir.upD =>
      let y := s.y - 4
      if y ≤ squareTop then ⟨s.x, squareTop, FDir.rightD⟩
      else ⟨s.x, y, FDir.upD⟩

/-- Closed square of side 80 centered on home, within which the fencing
enemy patrols. -/
def inFenceSquare (hx hy : ℚ) (s : FState) : Prop :=
  hx - 80 / 2 ≤ s.x ∧ s.x ≤ hx + 80 / 2 ∧
  hy - 80 / 2 ≤ s.y ∧ s.y ≤ hy + 80 / 2

/-- C5: a fencing enemy inside the closed 80-side square centered on home
stays inside it after one update (moves clamp to the boundary); the
direction either stays or advances one step in the fixed cycle
right→down→left→up→right, and whenever it changes, the moved coordinate was
clamped to the corresponding square boundary. -/
theorem fencing_update_stays_in_square (hx hy : ℚ) (s : FState)
    (h : inFenceSquare hx hy s) :
    inFenceSquare hx hy (fencingUpdate hx hy s) ∧
    ((fencingUpdate hx hy s).dir = s.dir ∨
      (fencingUpdate hx hy s).dir = fencingNext s.dir) ∧
    ((fencingUpdate hx hy s).dir ≠ s.dir →
      ((s.dir = FDir.rightD → (fencingUpdate hx hy s).x = hx + 80 / 2) ∧
       (s.dir = FDir.downD → (fencingUpdate hx hy s).y = hy + 80 / 2) ∧
       (s.dir = FDir.leftD → (fencingUpdate hx hy s).x = hx - 80 / 2) ∧
       (s.dir = FDir.upD → (fencingUpdate hx hy s).y = hy - 80 / 2))) := by
  obtain ⟨x, y, dir⟩ := s
  obtain ⟨h1, h2, h3, h4⟩ := h
  cases dir <;>
    simp only [fencingUpdate, fencingNext, inFenceSquare] <;>
    split_ifs with hb <;>
    dsimp only <;>
    refine ⟨⟨?_, ?_, ?_, ?_⟩, ?_, ?_⟩ <;>
    first
      | linarith
      | (left; rfl)
      | (right; rfl)
      | (intro hne; exact absurd rfl hne)
      | (intro hne; refine ⟨?_, ?_, ?_, ?_⟩ <;> intro hd <;>
          first | rfl | (exact absurd hd (by decide)))

/-- Witness for C5: a fencing enemy at the center of the square around home
(600, 200), heading right. -/
theorem fencing_update_stays_in_square_witness :
    inFenceSquare 600 200 ⟨600, 200, FDir.rightD⟩ ∧
    inFenceSquare 600 200 (fencingUpdate 600 200 ⟨600, 200, FDir.rightD⟩) :=
  ⟨by norm_num [inFenceSquare],
    (fencing_update_stays_in_square 600 200 ⟨600, 200, FDir.rightD⟩
      (by norm_num [inFenceSquare])).1⟩

/-- Cooldown between teleports in frames, from `TeleportingEnemy.__init__`. -/
def teleportCooldown : ℕ := 60

/-- Mutable state of a `TeleportingEnemy`: position and teleport counter. -/
structure TState where
  x : ℚ
  y : ℚ
  counter : ℕ
deriving DecidableEq

/-- From `TeleportingEnemy.teleport`: relocate near the player or near home
(uniform coin flip), offset in each axis by a `randint(-200, 200)` draw
(`ox`, `oy` are the drawn offsets). -/
def teleportTo (choosePlayer : Bool) (px py hx hy : ℚ) (ox oy : ℤ) : ℚ × ℚ :=
  if choosePlayer then (px + (ox : ℚ), py + (oy : ℚ))
  else (hx + (ox : ℚ), hy + (oy : ℚ))

/-- From `TeleportingEnemy.update`: increment the counter; when it reaches
the cooldown, teleport and reset the counter to 0. -/
def teleportingUpdate (s : TState) (choosePlayer : Bool) (px py hx hy : ℚ)
    (ox oy : ℤ) : TState :=
  let c := s.counter + 1
  if teleportCooldown ≤ c then
    let p := teleportTo choosePlayer px py hx hy ox oy
    ⟨p.1, p.2, 0⟩
  else ⟨s.x, s.y, c⟩

/-- C10: while the incremented counter is still below the 60-tick cooldown,
an update leaves the position unchanged and only increments the counter by
exactly 1; on the update where the incremented counter reaches the cooldown,
the enemy relocates to the teleport target and the counter resets to 0. -/
theorem teleporting_update_cooldown (s : TState) (ch : Bool)
    (px py hx hy : ℚ) (ox oy : ℤ) :
    (s.counter + 1 < teleportCooldown →
      teleportingUpdate s ch px py hx hy ox oy = ⟨s.x, s.y, s.counter + 1⟩) ∧
    (teleportCooldown ≤ s.counter + 1 →
      (teleportingUpdate s ch px py hx hy ox oy).counter = 0 ∧
      ((teleportingUpdate s ch px py hx hy ox oy).x,
       (teleportingUpdate s ch px py hx hy ox oy).y) =
        teleportTo ch px py hx hy ox oy) := by
  constructor
  · intro hlt
    simp only [teleportingUpdate]
    rw [if_neg (by omega)]
  · intro hge
    simp only [teleportingUpdate]
    rw [if_pos hge]
    exact ⟨rfl, rfl⟩

/-- Witness for C10: an enemy with counter 5 does not move and its counter
becomes 6. -/
theorem teleporting_update_cooldown_witness :
    5 + 1 < teleportCooldown ∧
    teleportingUpdate ⟨1, 2, 5⟩ true 0 0 0 0 0 0 = ⟨1, 2, 5 + 1⟩ :=
  ⟨by decide,
    (teleporting_update_cooldown ⟨1, 2, 5⟩ true 0 0 0 0 0 0).1 (by decide)⟩

/-- Candidate box for fencing placements: within ±25 (the callback's
`max_distance_from_home`) of home's position on each axis —
the closed range of `randint(home - 25, home + 25)`. -/
def inFenceBox (h : Home) (p : ℤ × ℤ) : Prop :=
  h.x - 25 ≤ p.1 ∧ p.1 ≤ h.x + 25 ∧ h.y - 25 ≤ p.2 ∧ p.2 ≤ h.y + 25

/-- While-loop of `create_fencing_enemy`: while the current position is
inside home, replace it by the next candidate draw.  `cand` is the oracle
stream of `randint` draws, `fuel` bounds the iterations, and `none` models
a run that has not terminated within the fuel. -/
def fencingLoop (h : Home) : ℕ → (ℕ → ℤ × ℤ) → ℕ → ℤ × ℤ → Option (ℤ × ℤ)
  | 0, _, _, p =>
      if homeContains h (p.1 : ℚ) (p.2 : ℚ) then none else some p
  | Nat.succ fuel, cand, k, p =>
      if homeContains h (p.1 : ℚ) (p.2 : ℚ) then
        fencingLoop h fuel cand (k + 1) (cand k)
      else some p

/-- Placement of one fencing enemy from `create_fencing_enemy`: start from
the initial position `(ix, iy)` the element was created with; if it differs
from home's position on both axes, replace it by a first `randint` draw
within ±25 of home; then reroll via the while-loop as long as the position
is inside home. -/
def fencingPlace (h : Home) (ix iy : ℤ) (first : ℤ × ℤ)
    (cand : ℕ → ℤ × ℤ) (fuel : ℕ) : Option (ℤ × ℤ) :=
  let p0 := if ix ≠ h.x ∧ iy ≠ h.y then first else (ix, iy)
  fencingLoop h fuel cand 0 p0

lemma fencingLoop_some_not_contains (h : Home) (fuel : ℕ)
    (cand : ℕ → ℤ × ℤ) (k : ℕ) (p q : ℤ × ℤ)
    (hres : fencingLoop h fuel cand k p = some q) :
    ¬ homeContains h (q.1 : ℚ) (q.2 : ℚ) := by
  induction fuel generalizing k p with
  | zero =>
      simp only [fencingLoop] at hres
      split_ifs at hres with hc
      injection hres with h2
      subst h2
      exact hc
  | succ fuel ih =>
      simp only [fencingLoop] at hres
      split_ifs at hres with hc
      · exact ih (k + 1) (cand k) hres
      · injection hres with h2
        subst h2
        exact hc

lemma fencingLoop_some_mem (h : Home) (fuel : ℕ)
    (cand : ℕ → ℤ × ℤ) (k : ℕ) (p q : ℤ × ℤ)
    (hres : fencingLoop h fuel cand k p = some q) :
    q = p ∨ ∃ j, q = cand j := by
  induction fuel generalizing k p with
  | zero =>
      simp only [fencingLoop] at hres
      split_ifs at hres
      injection hres with h2
      exact Or.inl h2.symm
  | succ fuel ih =>
      simp only [fencingLoop] at hres
      split_ifs at hres
      · rcases ih (k + 1) (cand k) hres with hq | ⟨j, hj⟩
        · exact Or.inr ⟨k, hq⟩
        · exact Or.inr ⟨j, hj⟩
      · injection hres with h2
        exact Or.inl h2.symm

/-- C6: whenever the fencing placement terminates (produces a position),
that position is not inside home — every candidate inside home is rejected
and rerolled; moreover, when the initial-position guard passes and every
`randint` draw respects its ±25 bounds, the final position lies within ±25
of home. -/
theorem fencing_place_not_in_home (h : Home) (ix iy : ℤ) (first : ℤ × ℤ)
    (cand : ℕ → ℤ × ℤ) (fuel : ℕ) (q : ℤ × ℤ)
    (hres : fencingPlace h ix iy first cand fuel = some q) :
    ¬ homeContains h (q.1 : ℚ) (q.2 : ℚ) ∧
    (ix ≠ h.x → iy ≠ h.y → inFenceBox h first →
      (∀ k, inFenceBox h (cand k)) → inFenceBox h q) := by
  constructor
  · exact fencingLoop_some_not_contains h fuel cand 0 _ q hres
  · intro hx hy hfirst hcand
    unfold fencingPlace at hres
    rw [if_pos ⟨hx, hy⟩] at hres
    rcases fencingLoop_some_mem h fuel cand 0 first q hres with rfl | ⟨j, rfl⟩
    · exact hfirst
    · exact hcand j

/-- Witness for C6: home (600, 200) of size 20, first draw (620, 210) is
outside home, so the loop returns it at once. -/
theorem fencing_place_not_in_home_witness :
    fencingPlace ⟨600, 200, 20⟩ 0 0 (620, 210) (fun _ => (615, 205)) 3 =
      some (620, 210) ∧
    ¬ homeContains ⟨600, 200, 20⟩ ((620 : ℤ) : ℚ) ((210 : ℤ) : ℚ) :=
  ⟨by norm_num [fencingPlace, fencingLoop, homeContains],
    (fencing_place_not_in_home ⟨600, 200, 20⟩ 0 0 (620, 210)
      (fun _ => (615, 205)) 3 (620, 210)
      (by norm_num [fencingPlace, fencingLoop, homeContains])).1⟩

/-- Real-valued reading of `Home.contains`, used where the player's
(floating-point) coordinates are involved. -/
def homeContainsR (h : Home) (px py : ℝ) : Prop :=
  ((h.x : ℝ) - (h.size : ℝ) / 2 ≤ px ∧ px ≤ (h.x : ℝ) + (h.size : ℝ) / 2) ∧
  ((h.y : ℝ) - (h.size : ℝ) / 2 ≤ py ∧ py ≤ (h.y : ℝ) + (h.size : ℝ) / 2)

/-- Guard of the `game_over_win()` call in `Player.update`: the win
transition is signalled exactly when home contains the player's position. -/
def playerSignalsWin (h : Home) (px py : ℝ) : Prop := homeContainsR h px py

/-- Waypoint-steering part of `Player.update`, which runs unconditionally
after the home check (there is no early return): when the waypoint is
active, set heading toward the waypoint (`towards` = atan2 of the
difference; at distance zero atan2 gives heading 0, i.e. a move in +x),
move forward by `speed`, then deactivate the waypoint if the remaining
distance is now below `speed`.  Returns (new x, new y, waypoint active). -/
noncomputable def playerUpdate (speed px py wx wy : ℝ) (wActive : Bool) :
    ℝ × ℝ × Bool :=
  if wActive then
    let dx := wx - px
    let dy := wy - py
    let d := Real.sqrt (dx ^ 2 + dy ^ 2)
    let nx := if 0 < d then px + speed * (dx / d) else px + speed
    let ny := if 0 < d then py + speed * (dy / d) else py
    if Real.sqrt ((wx - nx) ^ 2 + (wy - ny) ^ 2) < speed then (nx, ny, false)
    else (nx, ny, true)
  else (px, py, wActive)

lemma playerUpdate_eval (speed px py wx wy d r : ℝ)
    (hd : Real.sqrt ((wx - px) ^ 2 + (wy - py) ^ 2) = d) (hdpos : 0 < d)
    (hr : Real.sqrt ((wx - (px + speed * ((wx - px) / d))) ^ 2 +
            (wy - (py + speed * ((wy - py) / d))) ^ 2) = r)
    (hrs : r < speed) :
    playerUpdate speed px py wx wy true =
      (px + speed * ((wx - px) / d), py + speed * ((wy - py) / d), false) := by
  simp only [playerUpdate, if_true, hd]
  rw [if_pos hdpos, if_pos hdpos, if_pos (by rw [hr]; exact hrs)]

/-- C4: a player at (0,0) with speed 5, outside home, with the waypoint
active at (3,0), does not signal a win, moves to (5,0) — a full 5 units,
overshooting the waypoint — and the waypoint is deactivated, because the
remaining-distance check runs after the move (distance 2 < 5). -/
theorem player_update_overshoots_and_deactivates (h : Home)
    (hout : ¬ homeContainsR h 0 0) :
    ¬ playerSignalsWin h 0 0 ∧
    playerUpdate 5 0 0 3 0 true = (5, 0, false) := by
  constructor
  · exact hout
  · have hd : Real.sqrt ((3 - (0 : ℝ)) ^ 2 + (0 - (0 : ℝ)) ^ 2) = 3 := by
      rw [show (3 - (0 : ℝ)) ^ 2 + (0 - (0 : ℝ)) ^ 2 = 3 ^ 2 by norm_num]
      exact Real.sqrt_sq (by norm_num)
    have hr : Real.sqrt ((3 - ((0 : ℝ) + 5 * ((3 - 0) / 3))) ^ 2 +
        (0 - ((0 : ℝ) + 5 * ((0 - 0) / 3))) ^ 2) = 2 := by
      rw [show (3 - ((0 : ℝ) + 5 * ((3 - 0) / 3))) ^ 2 +
        (0 - ((0 : ℝ) + 5 * ((0 - 0) / 3))) ^ 2 = 2 ^ 2 by norm_num]
      exact Real.sqrt_sq (by norm_num)
    rw [playerUpdate_eval 5 0 0 3 0 3 2 hd (by norm_num) hr (by norm_num)]
    norm_num

/-- Witness for C4: with home at (600, 200) of size 20 the origin is
outside home and the update moves the player to (5, 0), deactivating the
waypoint. -/
theorem player_update_overshoots_and_deactivates_witness :
    ¬ homeContainsR ⟨600, 200, 20⟩ 0 0 ∧
    playerUpdate 5 0 0 3 0 true = (5, 0, false) :=
  ⟨by norm_num [homeContainsR],
    (player_update_overshoots_and_deactivates ⟨600, 200, 20⟩
      (by norm_num [homeContainsR])).2⟩

/-- C2 counterexample: with home at (600, 200) of size 20, a player at
(600, 200) is inside home — so the update signals the win — yet the same
update still moves the player: with the waypoint active at (603, 200) the
player's x becomes 605, not 600.  `Player.update` has no early return after
`game_over_win()`. -/
theorem player_update_win_still_moves_cx :
    homeContainsR ⟨600, 200, 20⟩ 600 200 ∧
    (playerUpdate 5 600 200 603 200 true).1 = 605 ∧
    (605 : ℝ) ≠ 600 := by
  refine ⟨by norm_num [homeContainsR], ?_, by norm_num⟩
  have hd : Real.sqrt ((603 - (600 : ℝ)) ^ 2 + (200 - (200 : ℝ)) ^ 2) = 3 := by
    rw [show (603 - (600 : ℝ)) ^ 2 + (200 - (200 : ℝ)) ^ 2 = 3 ^ 2 by norm_num]
    exact Real.sqrt_sq (by norm_num)
  have hr : Real.sqrt ((603 - ((600 : ℝ) + 5 * ((603 - 600) / 3))) ^ 2 +
      (200 - ((200 : ℝ) + 5 * ((200 - 200) / 3))) ^ 2) = 2 := by
    rw [show (603 - ((600 : ℝ) + 5 * ((603 - 600) / 3))) ^ 2 +
      (200 - ((200 : ℝ) + 5 * ((200 - 200) / 3))) ^ 2 = 2 ^ 2 by norm_num]
    exact Real.sqrt_sq (by norm_num)
  rw [playerUpdate_eval 5 600 200 603 200 3 2 hd (by norm_num) hr (by norm_num)]
  norm_num

/-- C2 amended: when the player's position is inside home, `Player.update`
signals the win transition, but it does NOT stop there: the
waypoint-steering code still runs in the same call, and with an active
waypoint the player is still displaced by exactly `speed` (Euclidean). -/
theorem player_update_win_signal_still_moves (h : Home)
    (speed px py wx wy : ℝ) (hin : homeContainsR h px py) :
    playerSignalsWin h px py ∧
    ((playerUpdate speed px py wx wy true).1 - px) ^ 2 +
      ((playerUpdate speed px py wx wy true).2.1 - py) ^ 2 = speed ^ 2 := by
  refine ⟨hin, ?_⟩
  simp only [playerUpdate, if_true]
  set d := Real.sqrt ((wx - px) ^ 2 + (wy - py) ^ 2) with hdd
  by_cases hd : 0 < d
  · have hd2 : d ^ 2 = (wx - px) ^ 2 + (wy - py) ^ 2 := by
      rw [hdd]; exact Real.sq_sqrt (by positivity)
    have hne : d ≠ 0 := ne_of_gt hd
    rw [if_pos hd]
    split_ifs <;>
      · dsimp only
        rw [show px + speed * ((wx - px) / d) - px = speed * ((wx - px) / d) by
              ring,
            show py + speed * ((wy - py) / d) - py = speed * ((wy - py) / d) by
              ring,
            show (speed * ((wx - px) / d)) ^ 2 + (speed * ((wy - py) / d)) ^ 2 =
              speed ^ 2 * (((wx - px) ^ 2 + (wy - py) ^ 2) / d ^ 2) by ring,
            ← hd2, div_self (pow_ne_zero 2 hne), mul_one]
  · rw [if_neg hd]
    split_ifs <;>
      · dsimp only
        ring

/-- Witness for C2 amended: home (600, 200) of size 20 contains the player
at (600, 200); the update still displaces the player by 5 units. -/
theorem player_update_win_signal_still_moves_witness :
    homeContainsR ⟨600, 200, 20⟩ 600 200 ∧
    ((playerUpdate 5 600 200 603 200 true).1 - 600) ^ 2 +
      ((playerUpdate 5 600 200 603 200 true).2.1 - 200) ^ 2 = 5 ^ 2 :=
  ⟨by norm_num [homeContainsR],
    (player_update_win_signal_still_moves ⟨600, 200, 20⟩ 5 600 200 603 200
      (by norm_num [homeContainsR])).2⟩

/-- From `ChasingEnemy.update`: vector from enemy `(ex, ey)` to the
player's current position `(px, py)`; if its length is positive, advance
the enemy by speed 4 along the normalized vector, otherwise do not move
(the `distance > 0` guard). -/
noncomputable def chasingUpdate (px py ex ey : ℝ) : ℝ × ℝ :=
  let dx := px - ex
  let dy := py - ey
  let dist := Real.sqrt (dx ^ 2 + dy ^ 2)
  if 0 < dist then (ex + dx / dist * 4, ey + dy / dist * 4) else (ex, ey)

/-- C8: if the chasing enemy's position coincides with the player's, the
update does not move it (the normalization guard prevents the division by a
zero distance); otherwise the enemy advances along the unit vector toward
the player, by exactly 4 Euclidean units. -/
theorem chasing_update_guarded (px py ex ey : ℝ) :
    ((px, py) = ((ex, ey) : ℝ × ℝ) → chasingUpdate px py ex ey = (ex, ey)) ∧
    ((px, py) ≠ ((ex, ey) : ℝ × ℝ) →
      chasingUpdate px py ex ey =
        (ex + (px - ex) / Real.sqrt ((px - ex) ^ 2 + (py - ey) ^ 2) * 4,
         ey + (py - ey) / Real.sqrt ((px - ex) ^ 2 + (py - ey) ^ 2) * 4) ∧
      ((chasingUpdate px py ex ey).1 - ex) ^ 2 +
        ((chasingUpdate px py ex ey).2 - ey) ^ 2 = 4 ^ 2) := by
  constructor
  · intro heq
    rw [Prod.mk.injEq] at heq
    obtain ⟨rfl, rfl⟩ := heq
    simp [chasingUpdate]
  · intro hne
    have hpos : 0 < (px - ex) ^ 2 + (py - ey) ^ 2 := by
      simp only [ne_eq, Prod.mk.injEq, not_and_or] at hne
      rcases hne with h | h
      · have h1 : 0 < (px - ex) ^ 2 := sq_pos_of_ne_zero (sub_ne_zero.mpr h)
        nlinarith [sq_nonneg (py - ey)]
      · have h1 : 0 < (py - ey) ^ 2 := sq_pos_of_ne_zero (sub_ne_zero.mpr h)
        nlinarith [sq_nonneg (px - ex)]
    have hdist : 0 < Real.sqrt ((px - ex) ^ 2 + (py - ey) ^ 2) :=
      Real.sqrt_pos.mpr hpos
    have hupd : chasingUpdate px py ex ey =
        (ex + (px - ex) / Real.sqrt ((px - ex) ^ 2 + (py - ey) ^ 2) * 4,
         ey + (py - ey) / Real.sqrt ((px - ex) ^ 2 + (py - ey) ^ 2) * 4) := by
      simp only [chasingUpdate]
      rw [if_pos hdist]
    refine ⟨hupd, ?_⟩
    rw [hupd]
    set d := Real.sqrt ((px - ex) ^ 2 + (py - ey) ^ 2) with hdd
    have hd2 : d ^ 2 = (px - ex) ^ 2 + (py - ey) ^ 2 := by
      rw [hdd]; exact Real.sq_sqrt (le_of_lt hpos)
    have hne0 : d ≠ 0 := ne_of_gt hdist
    dsimp only
    rw [show ex + (px - ex) / d * 4 - ex = (px - ex) / d * 4 by ring,
        show ey + (py - ey) / d * 4 - ey = (py - ey) / d * 4 by ring,
        show ((px - ex) / d * 4) ^ 2 + ((py - ey) / d * 4) ^ 2 =
          (((px - ex) ^ 2 + (py - ey) ^ 2) / d ^ 2) * 4 ^ 2 by ring,
        ← hd2, div_self (pow_ne_zero 2 hne0), one_mul]

/-- Witness for C8: enemy at (0,0), player at (3,4): the positions differ
and the enemy advances 4 Euclidean units. -/
theorem chasing_update_guarded_witness :
    ((3 : ℝ), (4 : ℝ)) ≠ ((0 : ℝ), (0 : ℝ)) ∧
    ((chasingUpdate 3 4 0 0).1 - 0) ^ 2 +
      ((chasingUpdate 3 4 0 0).2 - 0) ^ 2 = 4 ^ 2 :=
  ⟨by norm_num, ((chasing_update_guarded 3 4 0 0).2 (by norm_num)).2⟩

/-- Validity of a `random.randint` oracle: call `n` with bounds `a ≤ b`
returns a value in the closed interval `[a, b]`. -/
def RngValid (rng : ℕ → ℤ → ℤ → ℤ) : Prop :=
  ∀ n a b, a ≤ b → a ≤ rng n a b ∧ rng n a b ≤ b

/-- Placement of a RandomWalkEnemy from `create_random_enemy`: the enemy is
created at the element's initial position `(ix, iy)`; if both coordinates
differ from 100, the position is replaced by draws `randint(0, 700)` and
`randint(0, 400)` — bounds hard-coded in the source, not the session's
screen dimensions. -/
def randomWalkPlace (ix iy : ℤ) (rng : ℕ → ℤ → ℤ → ℤ) : ℤ × ℤ :=
  if ix ≠ 100 ∧ iy ≠ 100 then (rng 0 0 700, rng 1 0 400) else (ix, iy)

/-- Modelled from the spec (refinement target for C7): the claim's property
that the spawn position is drawn uniformly over the full arena, i.e. x over
[0, screen_width] and y over [0, screen_height].  Uniformity is modelled by
its support: every valid rng lands in the arena box, and every point of the
arena box is attainable by some valid rng. -/
def placedUniformlyOverArena (sw sh ix iy : ℤ) : Prop :=
  (∀ rng, RngValid rng →
    0 ≤ (randomWalkPlace ix iy rng).1 ∧ (randomWalkPlace ix iy rng).1 ≤ sw ∧
    0 ≤ (randomWalkPlace ix iy rng).2 ∧ (randomWalkPlace ix iy rng).2 ≤ sh) ∧
  (∀ p : ℤ × ℤ, 0 ≤ p.1 → p.1 ≤ sw → 0 ≤ p.2 → p.2 ≤ sh →
    ∃ rng, RngValid rng ∧ randomWalkPlace ix iy rng = p)

/-- C7 counterexample: for a session with screen_width 800 and
screen_height 500 (and default initial position (0,0)), the spawn position
is NOT uniform over the arena: the point (750, 100) of the arena can never
be produced, because the x draw is hard-coded to `randint(0, 700)`. -/
theorem random_walk_not_uniform_over_arena :
    ¬ placedUniformlyOverArena 800 500 0 0 := by
  intro hcl
  obtain ⟨rng, hv, hp⟩ :=
    hcl.2 (750, 100) (by norm_num) (by norm_num) (by norm_num) (by norm_num)
  have hx : (randomWalkPlace 0 0 rng).1 = rng 0 0 700 := by
    simp [randomWalkPlace]
  have h700 : rng 0 0 700 ≤ 700 := (hv 0 0 700 (by norm_num)).2
  rw [hp] at hx
  simp only at hx
  omega

/-- C7 amended: whenever the initial-position guard passes (both initial
coordinates differ from 100), the spawn position is drawn uniformly over
the fixed box [0, 700] × [0, 400], regardless of the session's configured
screen dimensions. -/
theorem random_walk_place_fixed_bounds (ix iy : ℤ)
    (hix : ix ≠ 100) (hiy : iy ≠ 100) :
    placedUniformlyOverArena 700 400 ix iy := by
  constructor
  · intro rng hv
    simp only [randomWalkPlace, if_pos (And.intro hix hiy)]
    exact ⟨(hv 0 0 700 (by norm_num)).1, (hv 0 0 700 (by norm_num)).2,
      (hv 1 0 400 (by norm_num)).1, (hv 1 0 400 (by norm_num)).2⟩
  · intro p h1 h2 h3 h4
    obtain ⟨a, b⟩ := p
    simp only at h1 h2 h3 h4
    refine ⟨fun n lo hi => max lo (min hi (if n = 0 then a else b)), ?_, ?_⟩
    · intro n lo hi hab
      exact ⟨le_max_left _ _, max_le hab (min_le_left _ _)⟩
    · simp only [randomWalkPlace, if_pos (And.intro hix hiy)]
      norm_num
      constructor <;> omega

/-- Witness for C7 amended: initial position (0, 0) passes the guard. -/
theorem random_walk_place_fixed_bounds_witness :
    (0 : ℤ) ≠ 100 ∧ placedUniformlyOverArena 700 400 0 0 :=
  ⟨by decide, random_walk_place_fixed_bounds 0 0 (by decide) (by decide)⟩

end TurtleAdventure
